import Mathlib

/-!
Shallow embedding of the Little-Movie-Recommender core
(src/recommender_history.py, src/recommender_prefs.py,
src/hybrid_recommender.py, src/app.py).

Conventions of the embedding:
* pandas Series / DataFrames become Lean lists of records kept in row
  order; columnwise arithmetic becomes the corresponding elementwise
  operation.
* SQL tables become list-valued fields of a `DB` record; query results
  are list filters over them.
* Python floats become `Rat`.  External library functions whose exact
  values are irrational or I/O-dependent are passed in as parameters:
  `sim` stands for the sklearn cosine_similarity output over the local
  item matrix (a symmetric function in reality), `log1p` for
  numpy.log1p on a rating count, `lang` for the TMDB original-language
  lookup keyed by tmdb id (`none` models a failed or absent lookup).
* Python exceptions that the module raises on purpose become
  `Except HistError`; the uncaught KeyError that
  `rating_matrix.loc[user_id]` can raise is modelled by the
  `userRowMissing` constructor so that it stays observable.
* NULL-able SQL columns become `Option` fields.  NaN-valued data is
  outside the modelled snapshots except where the source explicitly
  tests for it (min_max_normalize, fillna).
-/

set_option allowUnsafeReducibility true
attribute [semireducible] Rat.add Rat.sub Rat.mul Rat.inv

instance exceptDecEq {ε α : Type} [DecidableEq ε] [DecidableEq α] :
    DecidableEq (Except ε α) := fun a b =>
  match a, b with
  | .error e, .error f =>
      if h : e = f then isTrue (congrArg Except.error h)
      else isFalse (fun c => h (Except.error.inj c))
  | .ok x, .ok y =>
      if h : x = y then isTrue (congrArg Except.ok h)
      else isFalse (fun c => h (Except.ok.inj c))
  | .error _, .ok _ => isFalse (fun c => Except.noConfusion c)
  | .ok _, .error _ => isFalse (fun c => Except.noConfusion c)

/-- Row of the ratings table: one rating event. -/
structure RatingRow where
  user_id : Nat
  movie_id : Nat
  rating : Rat
deriving DecidableEq, Repr

/-- The seven genre flags used by the recommender. -/
inductive Genre where
  | action
  | comedy
  | drama
  | horror
  | romance
  | scifi
  | animation
deriving DecidableEq, Repr

/-- Genre columns in the insertion order of the genre_map dict of the source. -/
def Genre.all : List Genre :=
  [.action, .comedy, .drama, .horror, .romance, .scifi, .animation]

/-- Row of the movie_features / movie_features_with_links views. -/
structure MovieFeatureRow where
  movie_id : Nat
  title : String
  genres : String
  year : Option Int
  avg_rating : Option Rat
  num_ratings : Nat
  is_action : Bool
  is_comedy : Bool
  is_drama : Bool
  is_horror : Bool
  is_romance : Bool
  is_scifi : Bool
  is_animation : Bool
  tmdb_id : Option Nat
deriving DecidableEq, Repr

/-- Candidate row after load_candidates has imputed year and avg_rating. -/
structure Candidate where
  movie_id : Nat
  title : String
  genres : String
  year : Int
  avg_rating : Rat
  num_ratings : Nat
  is_action : Bool
  is_comedy : Bool
  is_drama : Bool
  is_horror : Bool
  is_romance : Bool
  is_scifi : Bool
  is_animation : Bool
  tmdb_id : Option Nat
deriving DecidableEq, Repr

/-- Genre flag of a candidate, matching the is_* column for the genre. -/
def Candidate.flag (c : Candidate) (g : Genre) : Bool :=
  match g with
  | .action => c.is_action
  | .comedy => c.is_comedy
  | .drama => c.is_drama
  | .horror => c.is_horror
  | .romance => c.is_romance
  | .scifi => c.is_scifi
  | .animation => c.is_animation

/-- Snapshot of the relational store the recommender reads. -/
structure DB where
  ratings : List RatingRow
  movie_features_with_links : List MovieFeatureRow
  movie_features : List MovieFeatureRow
deriving Repr

/-- Errors the history recommender can surface.  noHistory,
insufficientData, noSignal and noCandidates model the four ValueError
raise sites of recommender_history.py; userRowMissing models the
KeyError that rating_matrix.loc raises when the target user has no row
in the pivoted matrix. -/
inductive HistError where
  | noHistory
  | insufficientData
  | userRowMissing
  | noSignal
  | noCandidates
deriving DecidableEq, Repr

/-- True exactly on the error case of an Except value. -/
def isErr {ε α : Type} : Except ε α → Bool
  | .error _ => true
  | .ok _ => false

/-- List payload of an Except, empty on error.  Used only to state
concrete witnesses. -/
def exceptList {ε α : Type} : Except ε (List α) → List α
  | .error _ => []
  | .ok l => l

/-- Minimum of a rational series, none when the series is empty
(modelling the NaN that pandas min returns there). -/
def listMin : List Rat → Option Rat
  | [] => none
  | x :: xs => some (xs.foldl min x)

/-- Maximum of a rational series, none when the series is empty. -/
def listMax : List Rat → Option Rat
  | [] => none
  | x :: xs => some (xs.foldl max x)

/-- Minimum of a series with default 0, used to state claims. -/
def listMinD (s : List Rat) : Rat := (listMin s).getD 0

/-- Maximum of a series with default 0, used to state claims. -/
def listMaxD (s : List Rat) : Rat := (listMax s).getD 0

/-- min_max_normalize of app.py and hybrid_recommender.py: scale a
series to the 0-1 range; if the minimum is undefined (empty series,
the pandas NaN case) or the series is constant, return all zeros. -/
def min_max_normalize (s : List Rat) : List Rat :=
  match listMin s, listMax s with
  | some mn, some mx =>
      if mx = mn then s.map (fun _ => 0) else s.map (fun x => (x - mn) / (mx - mn))
  | _, _ => s.map (fun _ => 0)

/-- Blended score of app.py step 5 and hybrid_recommender.py step 5. -/
def finalScore (alpha pn hn : Rat) : Rat :=
  alpha * pn + (1 - alpha) * hn

/-- Insert into a descending-sorted list, keeping earlier elements
first on ties (a stable descending sort step). -/
def insertDesc {α : Type} (key : α → Rat) (x : α) : List α → List α
  | [] => [x]
  | y :: ys => if key y < key x then x :: y :: ys else y :: insertDesc key x ys

/-- Stable insertion sort by descending key, modelling
sort_values(..., ascending=False). -/
def sortDescBy {α : Type} (key : α → Rat) : List α → List α
  | [] => []
  | x :: xs => insertDesc key x (sortDescBy key xs)

/-- Sorted insertion into a strictly ascending list of naturals. -/
def insSorted (x : Nat) : List Nat → List Nat
  | [] => [x]
  | y :: ys => if x < y then x :: y :: ys else if x = y then y :: ys else y :: insSorted x ys

/-- Sorted deduplication, modelling the sorted index / column order a
pandas pivot or an outer merge produces on integer keys. -/
def sortedDedup (l : List Nat) : List Nat :=
  l.foldl (fun acc x => insSorted x acc) []

/-!
Embedding of src/recommender_history.py.

The sklearn call cosine_similarity(rating_matrix_filled.T) is an
external numeric library routine whose values are irrational; it is
modelled by the parameter sim, a function from a pair of movie ids to
the similarity value.  Cosine similarity is symmetric; theorems that
need that fact take it as a hypothesis.
-/

/-- Ratings of the target user, in table order
(SELECT movie_id, rating FROM ratings WHERE user_id = uid). -/
def userRatingRows (db : DB) (uid : Nat) : List RatingRow :=
  db.ratings.filter (fun r => r.user_id = uid)

/-- Movie ids the target user has rated
(get_user_rated_movie_ids of app.py; membership is what the set is
used for). -/
def userRatedIds (db : DB) (uid : Nat) : List Nat :=
  (userRatingRows db uid).map (fun r => r.movie_id)

/-- Neighbor users: distinct users other than the target who rated at
least one movie the target rated, capped at maxNeighbors.  SQL
DISTINCT with LIMIT and no ORDER BY has implementation-defined order;
the embedding fixes ascending id order, which the claims never rely
on. -/
def neighborIds (db : DB) (uid : Nat) (maxNeighbors : Nat) : List Nat :=
  (sortedDedup ((db.ratings.filter
      (fun r => r.movie_id ∈ userRatedIds db uid && r.user_id ≠ uid)).map
      (fun r => r.user_id))).take maxNeighbors

/-- all_users of _build_local_matrix: neighbors plus the target user,
with the fallback branch for an empty list kept as in the source. -/
def allUsersOf (db : DB) (uid : Nat) (maxNeighbors : Nat) : List Nat :=
  let l := neighborIds db uid maxNeighbors ++ [uid]
  if l = [] then [uid] else l

/-- All ratings of the local user set. -/
def ratingsLocal (db : DB) (uid : Nat) (maxNeighbors : Nat) : List RatingRow :=
  db.ratings.filter (fun r => r.user_id ∈ allUsersOf db uid maxNeighbors)

/-- Number of ratings a movie has inside a rating list
(value_counts of _build_local_matrix). -/
def movieCount (rs : List RatingRow) (m : Nat) : Nat :=
  (rs.filter (fun r => r.movie_id = m)).length

/-- Local ratings restricted to movies with at least minMovieRatings
ratings inside the local subset. -/
def localFiltered (db : DB) (uid : Nat) (maxNeighbors minMovieRatings : Nat) :
    List RatingRow :=
  (ratingsLocal db uid maxNeighbors).filter
    (fun r => minMovieRatings ≤ movieCount (ratingsLocal db uid maxNeighbors) r.movie_id)

/-- Row index of the pivoted matrix: the distinct user ids, ascending
as pandas pivot_table sorts them. -/
def matrixUsers (rs : List RatingRow) : List Nat :=
  sortedDedup (rs.map (fun r => r.user_id))

/-- Column index of the pivoted matrix: the distinct movie ids,
ascending. -/
def matrixMovies (rs : List RatingRow) : List Nat :=
  sortedDedup (rs.map (fun r => r.movie_id))

/-- Cell of the pivoted matrix: pivot_table aggregates duplicate
(user, movie) pairs by their mean; a missing cell is none. -/
def pivotCell (rs : List RatingRow) (u m : Nat) : Option Rat :=
  let l := (rs.filter (fun r => r.user_id = u && r.movie_id = m)).map (fun r => r.rating)
  if l = [] then none else some (l.sum / (l.length : Rat))

/-- _build_local_matrix: returns the support-filtered local rating
rows (the pivoted matrices are derived from them), or the error the
two raise sites produce. -/
def buildLocalMatrix (db : DB) (uid : Nat) (maxNeighbors minMovieRatings : Nat) :
    Except HistError (List RatingRow) :=
  if userRatingRows db uid = [] then .error .noHistory
  else if localFiltered db uid maxNeighbors minMovieRatings = [] then
    .error .insufficientData
  else .ok (localFiltered db uid maxNeighbors minMovieRatings)

/-- The target user row of the matrix with NaN cells dropped, in
column order: the (movie, rating) pairs the user rated inside the
local matrix. -/
def ratedPairs (rl : List RatingRow) (uid : Nat) : List (Nat × Rat) :=
  (matrixMovies rl).filterMap (fun m => (pivotCell rl uid m).map (fun r => (m, r)))

/-- Score propagation: scores start at zero for every movie of the
local universe and each rated movie adds sim_df[i] * (rating - 3.0);
the membership test mirrors the guard on sim_df.columns in the
source. -/
def propagatedScores (rl : List RatingRow) (sim : Nat → Nat → Rat) (uid : Nat) :
    List (Nat × Rat) :=
  (matrixMovies rl).map (fun m =>
    (m, (ratedPairs rl uid).foldl
      (fun acc p => if p.1 ∈ matrixMovies rl then acc + sim m p.1 * (p.2 - 3) else acc) 0))

/-- Propagated scores with the already-rated movies dropped and only
strictly positive scores kept. -/
def posScores (rl : List RatingRow) (sim : Nat → Nat → Rat) (uid : Nat) :
    List (Nat × Rat) :=
  ((propagatedScores rl sim uid).filter
      (fun p => p.1 ∉ (ratedPairs rl uid).map Prod.fst)).filter
    (fun p => 0 < p.2)

/-- Inner join of the positive scores with the movie_features_with_links
stats, keeping the score order and the filter on the global rating
count. -/
def globallyFiltered (links : List MovieFeatureRow) (ps : List (Nat × Rat))
    (minRatings : Nat) : List ((Nat × Rat) × MovieFeatureRow) :=
  (ps.flatMap (fun p => (links.filter (fun mr => mr.movie_id = p.1)).map (fun mr => (p, mr)))).filter
    (fun q => minRatings ≤ q.2.num_ratings)

/-- Output row of recommend_from_history. -/
structure HistRow where
  movie_id : Nat
  title : String
  genres : String
  score : Rat
  avg_rating : Option Rat
  num_ratings : Nat
deriving DecidableEq, Repr

/-- recommend_from_history of src/recommender_history.py. -/
def recommend_from_history (db : DB) (sim : Nat → Nat → Rat) (uid : Nat)
    (top_n : Nat) (min_ratings : Nat) : Except HistError (List HistRow) :=
  match buildLocalMatrix db uid 3000 5 with
  | .error e => .error e
  | .ok rl =>
    if uid ∈ matrixUsers rl then
      if ratedPairs rl uid = [] then .error .noHistory
      else if posScores rl sim uid = [] then .error .noSignal
      else if globallyFiltered db.movie_features_with_links (posScores rl sim uid) min_ratings = [] then
        .error .noCandidates
      else
        .ok (((sortDescBy (fun q => q.1.2)
              (globallyFiltered db.movie_features_with_links (posScores rl sim uid) min_ratings)).take top_n).map
          (fun q => ⟨q.1.1, q.2.title, q.2.genres, q.1.2, q.2.avg_rating, q.2.num_ratings⟩))
    else .error .userRowMissing

/-!
Embedding of src/recommender_prefs.py (the scoring core; the
interactive ask_preferences dialog is I/O glue and only fixes the same
profile shape compute_hybrid_recs builds).
-/

/-- Preference profile: genre weight per genre column, minimum year,
popularity mode string. -/
structure Prefs where
  genre_weights : Genre → Rat
  year_min : Int
  popularity_pref : String

/-- load_candidates of recommender_prefs.py and app.py (they differ
only in the table they read): keep movies with at least 10 ratings,
impute a missing avg_rating with the mean avg_rating of the filtered
pool, impute a missing year with 1900. -/
def load_candidates (tbl : List MovieFeatureRow) : List Candidate :=
  let kept := tbl.filter (fun r => 10 ≤ r.num_ratings)
  let avgs := kept.filterMap (fun r => r.avg_rating)
  let m := avgs.sum / (avgs.length : Rat)
  kept.map (fun r =>
    ⟨r.movie_id, r.title, r.genres, (r.year).getD 1900, (r.avg_rating).getD m,
     r.num_ratings, r.is_action, r.is_comedy, r.is_drama, r.is_horror,
     r.is_romance, r.is_scifi, r.is_animation, r.tmdb_id⟩)

/-- Smallest value of log1p over the rating counts of the pool
(log_pop.min() in the hidden branch); 0 for an empty pool, where the
source value is never used. -/
def minLogPool (df : List Candidate) (log1p : Nat → Rat) : Rat :=
  listMinD (df.map (fun c => log1p c.num_ratings))

/-- Mean of log1p over the rating counts of the pool
(log_pop.mean() in the mixed branch). -/
def meanLogPool (df : List Candidate) (log1p : Nat → Rat) : Rat :=
  let l := df.map (fun c => log1p c.num_ratings)
  l.sum / (l.length : Rat)

/-- Preference score of one candidate row, following the columnwise
steps of score_by_preferences elementwise: base avg_rating, genre
boosts, no-match penalty, year penalty, popularity shaping. -/
def prefScoreRow (df : List Candidate) (prefs : Prefs) (log1p : Nat → Rat)
    (c : Candidate) : Rat :=
  let s1 := Genre.all.foldl
    (fun acc g => if prefs.genre_weights g ≠ 0 then
        acc + (if c.flag g then (1 : Rat) else 0) * prefs.genre_weights g
      else acc) c.avg_rating
  let selected := Genre.all.filter (fun g => prefs.genre_weights g ≠ 0)
  let s2 := if selected ≠ [] ∧ ¬ selected.any (fun g => c.flag g) then s1 - 3 else s1
  let s3 := if ¬ (prefs.year_min ≤ c.year) then s2 - 2 else s2
  if prefs.popularity_pref = "popular" then
    s3 + log1p c.num_ratings
  else if prefs.popularity_pref = "hidden" then
    s3 + max ((500 - (c.num_ratings : Rat)) / 500) 0 * 3
       - (log1p c.num_ratings - minLogPool df log1p) * (2 / 10)
  else
    s3 + (log1p c.num_ratings - meanLogPool df log1p) * (3 / 10)

/-- score_by_preferences of recommender_prefs.py: the score series,
aligned with the candidate pool. -/
def score_by_preferences (df : List Candidate) (prefs : Prefs)
    (log1p : Nat → Rat) : List Rat :=
  df.map (prefScoreRow df prefs log1p)

/-- Output row of recommend_from_preferences. -/
structure PrefRow where
  movie_id : Nat
  title : String
  genres : String
  year : Int
  avg_rating : Rat
  num_ratings : Nat
  pref_score : Rat
deriving DecidableEq, Repr

/-- recommend_from_preferences of recommender_prefs.py. -/
def recommend_from_preferences (tbl : List MovieFeatureRow) (prefs : Prefs)
    (top_n : Nat) (log1p : Nat → Rat) : List PrefRow :=
  let df := load_candidates tbl
  let scored := df.zip (score_by_preferences df prefs log1p)
  ((sortDescBy (fun q => q.2) scored).take top_n).map
    (fun q => ⟨q.1.movie_id, q.1.title, q.1.genres, q.1.year, q.1.avg_rating,
               q.1.num_ratings, q.2⟩)

/-!
Embedding of the core pipeline of src/app.py (compute_hybrid_recs) and
of the index route boundary parsing.
-/

/-- Genre weights the route builds: 2.0 for each chosen genre, 0
elsewhere. -/
def genreWeightsOf (chosen : List Genre) : Genre → Rat :=
  fun g => if g ∈ chosen then 2 else 0

/-- History score joined onto a candidate: left merge on movie_id with
the deduplicated history frame, missing values filled with 0. -/
def histScoreFor (histDf : List (Nat × Rat)) (m : Nat) : Rat :=
  ((histDf.find? (fun p => p.1 = m)).map Prod.snd).getD 0

/-- drop_duplicates on movie_id keeping the first occurrence. -/
def dedupByKey (l : List (Nat × Rat)) : List (Nat × Rat) :=
  l.foldl (fun acc p => if acc.any (fun q => q.1 = p.1) then acc else acc ++ [p]) []

/-- Merged row of step 4 and 5 of compute_hybrid_recs: candidate
columns plus the two raw scores, their normalizations and the blended
score. -/
structure MRow where
  c : Candidate
  history_score : Rat
  pref_score : Rat
  history_norm : Rat
  pref_norm : Rat
  final_score : Rat
deriving DecidableEq, Repr

/-- Steps 4 and 5 of compute_hybrid_recs: join the history scores,
normalize both series over the current candidate set, blend with
alpha. -/
def mergeStage (c2 : List Candidate) (histDf : List (Nat × Rat))
    (prefScores : List Rat) (alpha : Rat) : List MRow :=
  let hist := c2.map (fun c => histScoreFor histDf c.movie_id)
  let hn := min_max_normalize hist
  let pn := min_max_normalize prefScores
  (((c2.zip prefScores).zip hist).zip (hn.zip pn)).map
    (fun q => ⟨q.1.1.1, q.1.2, q.1.1.2, q.2.1, q.2.2, finalScore alpha q.2.2 q.2.1⟩)

/-- Language of a merged row via the external provider:
get_original_language(row.get("tmdb_id")), none when the movie has no
tmdb id or the lookup fails. -/
def rowLangOf (lang : Nat → Option String) (r : MRow) : Option String :=
  match r.c.tmdb_id with
  | none => none
  | some t => lang t

/-- Step 6 of compute_hybrid_recs: the foreign-language gate.  It only
acts for the exclude and only policies, and is skipped entirely when
no language at all could be fetched. -/
def languageGate (eff : String) (lang : Nat → Option String) (ms : List MRow) :
    List MRow :=
  if eff = "exclude" ∨ eff = "only" then
    if 0 < (ms.filter (fun r => (rowLangOf lang r).isSome)).length then
      if eff = "exclude" then
        ms.filter (fun r => (rowLangOf lang r).isNone || (rowLangOf lang r == some "en"))
      else
        ms.filter (fun r => (rowLangOf lang r).isSome && (rowLangOf lang r != some "en"))
    else ms
  else ms

/-- Step 7 of compute_hybrid_recs: hidden-gem interleaving for the
hidden popularity mode, plain descending sort and head otherwise. -/
def selectStage (pop : String) (top_n : Nat) (ms : List MRow) : List MRow :=
  if pop = "hidden" then
    if top_n ≤ ((sortDescBy (fun r => r.final_score) ms).filter
        (fun r => r.c.num_ratings < 5000)).length then
      ((sortDescBy (fun r => r.final_score) ms).filter
        (fun r => r.c.num_ratings < 5000)).take top_n
    else
      ((sortDescBy (fun r => r.final_score) ms).filter
        (fun r => r.c.num_ratings < 5000)) ++
      ((sortDescBy (fun r => r.final_score) ms).filter
        (fun r => 5000 ≤ r.c.num_ratings)).take
        (top_n - ((sortDescBy (fun r => r.final_score) ms).filter
          (fun r => r.c.num_ratings < 5000)).length)
  else (sortDescBy (fun r => r.final_score) ms).take top_n

/-- Output row of compute_hybrid_recs (the poster url, pure external
presentation data fetched per row, is not part of the ranking model). -/
structure ResultRow where
  movie_id : Nat
  title : String
  genres : String
  year : Int
  avg_rating : Rat
  num_ratings : Nat
  history_score : Rat
  pref_score : Rat
  final_score : Rat
deriving DecidableEq, Repr

/-- Step 8 of compute_hybrid_recs: row conversion for the template. -/
def toResultRow (r : MRow) : ResultRow :=
  ⟨r.c.movie_id, r.c.title, r.c.genres, r.c.year, r.c.avg_rating,
   r.c.num_ratings, r.history_score, r.pref_score, r.final_score⟩

/-- compute_hybrid_recs up to and including the language gate: the
eligible merged rows that step 7 orders and truncates. -/
def computeStages (db : DB) (sim : Nat → Nat → Rat) (log1p : Nat → Rat)
    (lang : Nat → Option String) (apiKey : Bool) (uid : Nat)
    (genres_chosen : List Genre) (year_min : Int) (pop : String)
    (alpha : Rat) (foreign_choice : String) : Except HistError (List MRow) :=
  let eff := if apiKey then foreign_choice else "any"
  let candidates := load_candidates db.movie_features_with_links
  let rated := userRatedIds db uid
  let c1 := if rated = [] then candidates
            else candidates.filter (fun c => c.movie_id ∉ rated)
  match recommend_from_history db sim uid 500 30 with
  | .error e => .error e
  | .ok histRows =>
    let histDf := dedupByKey (histRows.map (fun h => (h.movie_id, h.score)))
    let prefs : Prefs := ⟨genreWeightsOf genres_chosen, year_min, pop⟩
    let c2 := if genres_chosen = [] then c1
              else c1.filter (fun c => genres_chosen.any (fun g => c.flag g))
    let rows := mergeStage c2 histDf (score_by_preferences c2 prefs log1p) alpha
    let pos := rows.filter (fun r => 0 < r.final_score)
    .ok (languageGate eff lang pos)

/-- compute_hybrid_recs of src/app.py. -/
def compute_hybrid_recs (db : DB) (sim : Nat → Nat → Rat) (log1p : Nat → Rat)
    (lang : Nat → Option String) (apiKey : Bool) (uid : Nat)
    (genres_chosen : List Genre) (year_min : Int) (pop : String)
    (alpha : Rat) (foreign_choice : String) (top_n : Nat) :
    Except HistError (List ResultRow) :=
  match computeStages db sim log1p lang apiKey uid genres_chosen year_min pop alpha foreign_choice with
  | .error e => .error e
  | .ok ms => .ok ((selectStage pop top_n ms).map toResultRow)

/-!
Embedding of recommend_hybrid of src/hybrid_recommender.py.
-/

/-- Merged row of the outer merge of recommend_hybrid, after the
combine_first fills of the shared display columns. -/
structure HybridMergedRow where
  movie_id : Nat
  title : Option String
  genres : Option String
  avg_rating : Option Rat
  num_ratings : Option Nat
  year : Option Int
  score : Option Rat
  pref_score : Option Rat
deriving DecidableEq, Repr

/-- Rows the outer merge produces for one key: history-only rows,
preference-only rows, or the pairing of both sides, with
combine_first preferring the history side for the shared columns. -/
def outerMergeRow (hl : List HistRow) (pl : List PrefRow) (i : Nat) :
    List HybridMergedRow :=
  match hl.filter (fun h => h.movie_id = i), pl.filter (fun p => p.movie_id = i) with
  | [], ps => ps.map (fun p =>
      ⟨i, some p.title, some p.genres, some p.avg_rating, some p.num_ratings,
       some p.year, none, some p.pref_score⟩)
  | h :: hs, [] => (h :: hs).map (fun h =>
      ⟨i, some h.title, some h.genres, h.avg_rating, some h.num_ratings,
       none, some h.score, none⟩)
  | h :: hs, p :: ps => (h :: hs).flatMap (fun h => (p :: ps).map (fun p =>
      ⟨i, some h.title, some h.genres,
       (h.avg_rating).orElse (fun _ => some p.avg_rating), some h.num_ratings,
       some p.year, some h.score, some p.pref_score⟩))

/-- Output row of recommend_hybrid. -/
structure HybridOut where
  movie_id : Nat
  title : Option String
  genres : Option String
  avg_rating : Option Rat
  num_ratings : Option Nat
  history_score : Rat
  pref_score : Rat
  final_score : Rat
deriving DecidableEq, Repr

/-- recommend_hybrid of src/hybrid_recommender.py: outer-merge the two
candidate frames (pandas sorts the keys of an outer merge), fill the
missing scores with 0, normalize, blend, keep positive blends, rank. -/
def recommend_hybrid (db : DB) (sim : Nat → Nat → Rat) (log1p : Nat → Rat)
    (uid : Nat) (prefs : Prefs) (alpha : Rat) (top_n : Nat) :
    Except HistError (List HybridOut) :=
  match recommend_from_history db sim uid (top_n * 5) 30 with
  | .error e => .error e
  | .ok hl =>
    let pl := recommend_from_preferences db.movie_features prefs (top_n * 5) log1p
    let ids := sortedDedup (hl.map (fun h => h.movie_id) ++ pl.map (fun p => p.movie_id))
    let mrows := ids.flatMap (outerMergeRow hl pl)
    let hs := mrows.map (fun r => (r.score).getD 0)
    let ps := mrows.map (fun r => (r.pref_score).getD 0)
    let hn := min_max_normalize hs
    let pn := min_max_normalize ps
    let rows := (((mrows.zip hs).zip ps).zip (hn.zip pn)).map
      (fun q => (⟨q.1.1.1.movie_id, q.1.1.1.title, q.1.1.1.genres,
                  q.1.1.1.avg_rating, q.1.1.1.num_ratings,
                  q.1.1.2, q.1.2, finalScore alpha q.2.2 q.2.1⟩ : HybridOut))
    let pos := rows.filter (fun r => 0 < r.final_score)
    .ok ((sortDescBy (fun r => r.final_score) pos).take top_n)

/-!
Embedding of the index route boundary of src/app.py: the POST branch
up to the compute_hybrid_recs invocation.  The Python float
constructor is passed in as floatParse; a none result models the
ValueError it raises on a non-numeric string, which the surrounding
try/except turns into an error page before the core is reached.
-/

/-- Caller-supplied form of the index route. -/
structure IndexForm where
  genres : List Genre
  year_choice : String
  pop_choice : String
  alpha_raw : Option String
  foreign_choice : String

/-- Arguments the route hands to compute_hybrid_recs. -/
structure CoreArgs where
  user_id : Nat
  genres_chosen : List Genre
  year_min : Int
  popularity_pref : String
  alpha : Rat
  foreign_choice : String
  top_n : Nat
deriving DecidableEq, Repr

/-- POST branch of the index route up to the core invocation: maps the
year tier, parses alpha with float() (default "0.4"), and builds the
exact argument record compute_hybrid_recs is invoked with; a parse
failure aborts before the core is reached. -/
def parseIndexRequest (floatParse : String → Option Rat) (myUserId : Nat)
    (f : IndexForm) : Except Unit CoreArgs :=
  let year_min : Int :=
    if f.year_choice = "after2000" then 2000
    else if f.year_choice = "after1980" then 1980
    else 1900
  match floatParse ((f.alpha_raw).getD "0.4") with
  | none => .error ()
  | some a => .ok ⟨myUserId, f.genres, year_min, f.pop_choice, a, f.foreign_choice, 10⟩

/-!
Specification-side definitions.  These two follow the wording of the
spec (sections 4.3 and 4.4) rather than the source, and are compared
with the source-side definitions in the refinement theorems below.
-/

/-- Preference score as the spec words it: base average rating, plus
the weight for each selected genre whose flag is true, a fixed penalty
when genres are selected and none match, a fixed penalty for a year
below the minimum, and the popularity term of the selected mode. -/
def prefScoreSpec (pool : List Candidate) (sel : List Genre) (year_min : Int)
    (mode : String) (log1p : Nat → Rat) (c : Candidate) : Rat :=
  c.avg_rating
  + 2 * (((sel.filter (fun g => c.flag g)).length : Rat))
  + (if sel ≠ [] ∧ ¬ sel.any (fun g => c.flag g) then -3 else 0)
  + (if c.year < year_min then -2 else 0)
  + (if mode = "popular" then log1p c.num_ratings
     else if mode = "hidden" then
       max 0 ((500 - (c.num_ratings : Rat)) / 500) * 3
         - (log1p c.num_ratings - minLogPool pool log1p) * (2 / 10)
     else (log1p c.num_ratings - meanLogPool pool log1p) * (3 / 10))

/-- History scores as the spec words them: every item of the
neighborhood universe starts at 0, each rated item i contributes
similarity(i, j) * (rating - 3.0) to every item j, rated items are
removed and only strictly positive scores are kept. -/
def histScoreSpec (rl : List RatingRow) (sim : Nat → Nat → Rat) (uid : Nat) :
    List (Nat × Rat) :=
  (((matrixMovies rl).map (fun j =>
      (j, ((ratedPairs rl uid).map (fun p => sim p.1 j * (p.2 - 3))).sum))).filter
    (fun p => p.1 ∉ (ratedPairs rl uid).map Prod.fst)).filter (fun p => 0 < p.2)

/-!
Concrete data used by the witnesses and counterexamples.
-/

/-- Symmetric similarity instance: 1 on the diagonal, one half off it. -/
def simW : Nat → Nat → Rat := fun a b => if a = b then 1 else 1 / 2

/-- Degenerate log1p instance (a constant external function value). -/
def log1pZ : Nat → Rat := fun _ => 0

/-- Language provider that never returns a value. -/
def langNone : Nat → Option String := fun _ => none

/-- Language provider that knows only tmdb id 7. -/
def langSeven : Nat → Option String := fun t => if t = 7 then some "fr" else none

/-- Snapshot where user 1 rated movie 20 and five neighbors rated
movies 20 and 30; the catalog carries movies 20, 30 and 40. -/
def dbW : DB :=
  { ratings :=
      [⟨1, 20, 5⟩, ⟨2, 20, 4⟩, ⟨2, 30, 4⟩, ⟨3, 20, 4⟩, ⟨3, 30, 4⟩,
       ⟨4, 20, 4⟩, ⟨4, 30, 4⟩, ⟨5, 20, 4⟩, ⟨5, 30, 4⟩, ⟨6, 20, 4⟩, ⟨6, 30, 4⟩],
    movie_features_with_links :=
      [⟨20, "A", "g", some 2005, some 3, 50, false, false, false, false, false, false, false, none⟩,
       ⟨30, "B", "g", some 2010, some 4, 100, false, false, false, false, false, false, false, none⟩,
       ⟨40, "C", "g", some 2010, some 2, 60, false, false, false, false, false, false, false, none⟩],
    movie_features := [] }

/-- Snapshot like dbW but whose only catalog row has 10 global
ratings, below the global minimum support of 30. -/
def dbC2 : DB :=
  { ratings := dbW.ratings,
    movie_features_with_links :=
      [⟨30, "B", "g", some 2010, some 4, 10, false, false, false, false, false, false, false, none⟩],
    movie_features := [] }

/-- Snapshot where each of the five movies user 1 rated has local
support 2, below the local minimum of 5, while movie 99 (rated by all
five neighbors, not by user 1) reaches support 5. -/
def db10 : DB :=
  { ratings :=
      [⟨1, 1, 4⟩, ⟨1, 2, 4⟩, ⟨1, 3, 4⟩, ⟨1, 4, 4⟩, ⟨1, 5, 4⟩,
       ⟨11, 1, 4⟩, ⟨11, 99, 4⟩, ⟨12, 2, 4⟩, ⟨12, 99, 4⟩,
       ⟨13, 3, 4⟩, ⟨13, 99, 4⟩, ⟨14, 4, 4⟩, ⟨14, 99, 4⟩,
       ⟨15, 5, 4⟩, ⟨15, 99, 4⟩],
    movie_features_with_links := [],
    movie_features := [] }

/-- Snapshot for the hybrid CLI path: the preference catalog
(movie_features) still lists movie 20, which user 1 has rated. -/
def dbH : DB :=
  { ratings := dbW.ratings,
    movie_features_with_links :=
      [⟨30, "B", "g", some 2010, some 4, 100, false, false, false, false, false, false, false, none⟩],
    movie_features :=
      [⟨20, "A", "g", some 2010, some 5, 100, false, false, false, false, false, false, false, none⟩,
       ⟨30, "B", "g", some 2010, some 2, 100, false, false, false, false, false, false, false, none⟩] }

/-- Profile with no genre selected, no year bound, mixed popularity. -/
def prefsH : Prefs := ⟨fun _ => 0, 1900, "mixed"⟩

/-- Profile selecting the horror genre only. -/
def prefsHor : Prefs := ⟨fun g => if g = .horror then 2 else 0, 1900, "hidden"⟩

/-- Candidate pool with one horror movie and one unflagged movie. -/
def dfHor : List Candidate :=
  [⟨60, "H", "g", 2010, 4, 80, false, false, false, true, false, false, false, none⟩,
   ⟨61, "N", "g", 1970, 3, 9000, false, false, false, false, false, false, false, none⟩]

/-- Merged row with tmdb id 7, language resolvable through langSeven. -/
def mrowSeven : MRow :=
  ⟨⟨50, "X", "g", 2000, 3, 10, false, false, false, false, false, false, false, some 7⟩,
   0, 0, 0, 0, 1⟩

/-- Merged row without a tmdb id: its language lookup always fails. -/
def mrowNoId : MRow :=
  ⟨⟨51, "Y", "g", 2000, 3, 10, false, false, false, false, false, false, false, none⟩,
   0, 0, 0, 0, 1⟩

/-- Float parser instance that accepts only the string "2.0". -/
def fpTwo : String → Option Rat := fun s => if s = "2.0" then some 2 else none

/-- Float parser instance that rejects every string. -/
def fpNone : String → Option Rat := fun _ => none

/-- Form whose alpha field holds the numeric but out-of-range "2.0". -/
def formTwo : IndexForm := ⟨[], "any", "mixed", some "2.0", "any"⟩

/-- Core arguments the boundary builds for formTwo under fpTwo. -/
def argsTwo : CoreArgs := ⟨9999999, [], 1900, "mixed", 2, "any", 10⟩
theorem mem_insertDesc {α : Type} (key : α → Rat) (x a : α) (l : List α) :
    a ∈ insertDesc key x l ↔ a = x ∨ a ∈ l := by
  induction l with
  | nil => simp [insertDesc]
  | cons y ys ih =>
      by_cases h : key y < key x <;>
        simp [insertDesc, h, List.mem_cons, ih] <;> tauto

theorem length_insertDesc {α : Type} (key : α → Rat) (x : α) (l : List α) :
    (insertDesc key x l).length = l.length + 1 := by
  induction l with
  | nil => simp [insertDesc]
  | cons y ys ih =>
      by_cases h : key y < key x <;> simp [insertDesc, h, ih]

theorem mem_sortDescBy {α : Type} (key : α → Rat) (a : α) (l : List α) :
    a ∈ sortDescBy key l ↔ a ∈ l := by
  induction l with
  | nil => simp [sortDescBy]
  | cons x xs ih => simp [sortDescBy, mem_insertDesc, ih]

theorem length_sortDescBy {α : Type} (key : α → Rat) (l : List α) :
    (sortDescBy key l).length = l.length := by
  induction l with
  | nil => simp [sortDescBy]
  | cons x xs ih => simp [sortDescBy, length_insertDesc, ih]

theorem pairwise_insertDesc {α : Type} (key : α → Rat) (x : α) (l : List α)
    (h : l.Pairwise (fun a b => key b ≤ key a)) :
    (insertDesc key x l).Pairwise (fun a b => key b ≤ key a) := by
  induction l with
  | nil => simp [insertDesc]
  | cons y ys ih =>
      rcases List.pairwise_cons.mp h with ⟨hy, hys⟩
      by_cases hlt : key y < key x
      · simp only [insertDesc, if_pos hlt]
        refine List.pairwise_cons.mpr ⟨?_, h⟩
        intro b hb
        rcases List.mem_cons.mp hb with rfl | hb
        · exact le_of_lt hlt
        · exact le_trans (hy b hb) (le_of_lt hlt)
      · simp only [insertDesc, if_neg hlt]
        refine List.pairwise_cons.mpr ⟨?_, ih hys⟩
        intro b hb
        rcases (mem_insertDesc key x b ys).mp hb with rfl | hb
        · exact not_lt.mp hlt
        · exact hy b hb

theorem pairwise_sortDescBy {α : Type} (key : α → Rat) (l : List α) :
    (sortDescBy key l).Pairwise (fun a b => key b ≤ key a) := by
  induction l with
  | nil => simp [sortDescBy]
  | cons x xs ih => exact pairwise_insertDesc key x _ ih

theorem mem_insSorted (x a : Nat) (l : List Nat) :
    a ∈ insSorted x l ↔ a = x ∨ a ∈ l := by
  induction l with
  | nil => simp [insSorted]
  | cons y ys ih =>
      by_cases h1 : x < y
      · simp [insSorted, h1, List.mem_cons] <;> tauto
      · by_cases h2 : x = y
        · subst h2
          simp [insSorted, h1, List.mem_cons] <;> tauto
        · simp [insSorted, h1, h2, List.mem_cons, ih] <;> tauto

theorem mem_sortedDedup (l : List Nat) (a : Nat) :
    a ∈ sortedDedup l ↔ a ∈ l := by
  suffices h : ∀ acc : List Nat,
      a ∈ l.foldl (fun acc x => insSorted x acc) acc ↔ a ∈ acc ∨ a ∈ l by
    have := h []
    simpa [sortedDedup] using this
  induction l with
  | nil => intro acc; simp
  | cons x xs ih =>
      intro acc
      simp only [List.foldl_cons, ih, mem_insSorted, List.mem_cons]
      tauto

theorem foldl_min_le (xs : List Rat) :
    ∀ x : Rat, xs.foldl min x ≤ x ∧ ∀ y ∈ xs, xs.foldl min x ≤ y := by
  induction xs with
  | nil => intro x; simp
  | cons a as ih =>
      intro x
      refine ⟨le_trans (ih (min x a)).1 (min_le_left x a), ?_⟩
      intro y hy
      rcases List.mem_cons.mp hy with rfl | hy
      · exact le_trans (ih (min x y)).1 (min_le_right x y)
      · exact (ih (min x a)).2 y hy

theorem foldl_le_max (xs : List Rat) :
    ∀ x : Rat, x ≤ xs.foldl max x ∧ ∀ y ∈ xs, y ≤ xs.foldl max x := by
  induction xs with
  | nil => intro x; simp
  | cons a as ih =>
      intro x
      refine ⟨le_trans (le_max_left x a) (ih (max x a)).1, ?_⟩
      intro y hy
      rcases List.mem_cons.mp hy with rfl | hy
      · exact le_trans (le_max_right x y) (ih (max x y)).1
      · exact (ih (max x a)).2 y hy

theorem foldl_min_mem (xs : List Rat) :
    ∀ x : Rat, xs.foldl min x = x ∨ xs.foldl min x ∈ xs := by
  induction xs with
  | nil => intro x; simp
  | cons a as ih =>
      intro x
      rcases ih (min x a) with h | h
      · rcases min_cases x a with ⟨he, _⟩ | ⟨he, _⟩
        · left; rw [List.foldl_cons, h, he]
        · right; rw [List.foldl_cons, h, he]; exact List.mem_cons_self a as
      · right; exact List.mem_cons_of_mem a h

theorem foldl_max_mem (xs : List Rat) :
    ∀ x : Rat, xs.foldl max x = x ∨ xs.foldl max x ∈ xs := by
  induction xs with
  | nil => intro x; simp
  | cons a as ih =>
      intro x
      rcases ih (max x a) with h | h
      · rcases max_cases x a with ⟨he, _⟩ | ⟨he, _⟩
        · left; rw [List.foldl_cons, h, he]
        · right; rw [List.foldl_cons, h, he]; exact List.mem_cons_self a as
      · right; exact List.mem_cons_of_mem a h

/-- Claim C5: for every non-empty numeric series, min_max_normalize
returns values in the unit interval (in particular it is total, so
never NaN); for a constant series every output is 0; otherwise each
output is (x - min) / (max - min). -/
theorem claim_c5_min_max_normalize (s : List Rat) (hs : s ≠ []) :
    (∀ y ∈ min_max_normalize s, 0 ≤ y ∧ y ≤ 1) ∧
    ((∀ x ∈ s, ∀ x2 ∈ s, x = x2) → ∀ y ∈ min_max_normalize s, y = 0) ∧
    ((∃ x ∈ s, ∃ x2 ∈ s, x ≠ x2) →
      min_max_normalize s =
        s.map (fun x => (x - listMinD s) / (listMaxD s - listMinD s))) := by
  obtain ⟨a, as, rfl⟩ := List.exists_cons_of_ne_nil hs
  set mn := as.foldl min a with hmn
  set mx := as.foldl max a with hmx
  have hminle : ∀ x ∈ a :: as, mn ≤ x := by
    intro x hx
    rcases List.mem_cons.mp hx with rfl | hx
    · exact (foldl_min_le as x).1
    · exact (foldl_min_le as a).2 x hx
  have hmaxge : ∀ x ∈ a :: as, x ≤ mx := by
    intro x hx
    rcases List.mem_cons.mp hx with rfl | hx
    · exact (foldl_le_max as x).1
    · exact (foldl_le_max as a).2 x hx
  have hmnmem : mn ∈ a :: as := by
    rcases foldl_min_mem as a with h | h
    · rw [hmn, h]; exact List.mem_cons_self a as
    · exact List.mem_cons_of_mem a h
  have hmxmem : mx ∈ a :: as := by
    rcases foldl_max_mem as a with h | h
    · rw [hmx, h]; exact List.mem_cons_self a as
    · exact List.mem_cons_of_mem a h
  by_cases hc : mx = mn
  · have hnorm : min_max_normalize (a :: as) = (a :: as).map (fun _ => 0) := by
      simp [min_max_normalize, listMin, listMax, ← hmn, ← hmx, hc]
    refine ⟨?_, ?_, ?_⟩
    · intro y hy
      rw [hnorm] at hy
      rcases List.mem_map.mp hy with ⟨x, _, rfl⟩
      norm_num
    · intro _ y hy
      rw [hnorm] at hy
      rcases List.mem_map.mp hy with ⟨x, _, rfl⟩
      rfl
    · rintro ⟨x, hx, x2, hx2, hne⟩
      exfalso
      apply hne
      have h1 : x = mn := le_antisymm (by rw [← hc]; exact hmaxge x hx) (hminle x hx)
      have h2 : x2 = mn := le_antisymm (by rw [← hc]; exact hmaxge x2 hx2) (hminle x2 hx2)
      rw [h1, h2]
  · have hlt : mn < mx := lt_of_le_of_ne (le_trans (hminle a (List.mem_cons_self a as)) (hmaxge a (List.mem_cons_self a as))) (Ne.symm hc)
    have hnorm : min_max_normalize (a :: as) =
        (a :: as).map (fun x => (x - mn) / (mx - mn)) := by
      simp [min_max_normalize, listMin, listMax, ← hmn, ← hmx, hc]
    refine ⟨?_, ?_, ?_⟩
    · intro y hy
      rw [hnorm] at hy
      rcases List.mem_map.mp hy with ⟨x, hx, rfl⟩
      constructor
      · exact div_nonneg (sub_nonneg.mpr (hminle x hx)) (le_of_lt (sub_pos.mpr hlt))
      · rw [div_le_one (sub_pos.mpr hlt)]
        exact sub_le_sub_right (hmaxge x hx) mn
    · intro hall
      exfalso
      exact hc (hall mx hmxmem mn hmnmem)
    · intro _
      rw [hnorm]
      have hmnd : listMinD (a :: as) = mn := by simp [listMinD, listMin, ← hmn]
      have hmxd : listMaxD (a :: as) = mx := by simp [listMaxD, listMax, ← hmx]
      rw [hmnd, hmxd]

/-- Witness for claim C5 at the concrete series [1, 3]. -/
theorem claim_c5_witness :
    (∀ y ∈ min_max_normalize [(1 : Rat), 3], 0 ≤ y ∧ y ≤ 1) ∧
    ((∀ x ∈ [(1 : Rat), 3], ∀ x2 ∈ [(1 : Rat), 3], x = x2) →
      ∀ y ∈ min_max_normalize [(1 : Rat), 3], y = 0) ∧
    ((∃ x ∈ [(1 : Rat), 3], ∃ x2 ∈ [(1 : Rat), 3], x ≠ x2) →
      min_max_normalize [(1 : Rat), 3] =
        [(1 : Rat), 3].map (fun x =>
          (x - listMinD [(1 : Rat), 3]) / (listMaxD [(1 : Rat), 3] - listMinD [(1 : Rat), 3]))) :=
  claim_c5_min_max_normalize [(1 : Rat), 3] (by decide)

/-- Claim C8: with the preference-dominant item first and the
history-dominant item second, a rank relation under the blend weight
alpha is preserved under any larger weight alpha2 in the unit
interval. -/
theorem claim_c8_fusion_monotone (p1 h1 p2 h2 a a2 : Rat)
    (hd1 : h1 ≤ p1) (hd2 : p2 ≤ h2) (h0 : 0 ≤ a) (haa : a ≤ a2) (h1a : a2 ≤ 1)
    (hrank : finalScore a p2 h2 ≤ finalScore a p1 h1) :
    finalScore a2 p2 h2 ≤ finalScore a2 p1 h1 := by
  simp only [finalScore] at hrank ⊢
  nlinarith [mul_nonneg (sub_nonneg.mpr haa)
    (by linarith : (0 : Rat) ≤ (p1 - h1) + (h2 - p2))]

/-- Witness for claim C8 at a concrete score quadruple and weights. -/
theorem claim_c8_witness :
    finalScore (3 / 4) 0 1 ≤ finalScore (3 / 4) 1 0 :=
  claim_c8_fusion_monotone 1 0 0 1 (1 / 2) (3 / 4)
    (by norm_num) (by norm_num) (by norm_num) (by norm_num) (by norm_num)
    (by simp [finalScore]; norm_num)

theorem genreFold_eq (w : Genre → Rat) (flag : Genre → Bool)
    (hw : ∀ g, w g = 0 ∨ w g = 2) :
    ∀ (L : List Genre) (s : Rat),
      L.foldl (fun acc g =>
          if w g ≠ 0 then acc + (if flag g then (1 : Rat) else 0) * w g else acc) s
        = s + 2 * (((L.filter (fun g => w g = 2 && flag g)).length : Rat)) := by
  intro L
  induction L with
  | nil => intro s; simp
  | cons g L ih =>
      intro s
      rw [List.foldl_cons, List.filter_cons]
      have hstep : (if w g ≠ 0 then s + (if flag g then (1 : Rat) else 0) * w g else s)
          = s + (if (decide (w g = 2) && flag g) = true then (2 : Rat) else 0) := by
        rcases hw g with h | h <;> by_cases hf : flag g <;>
          simp [h, hf] <;> norm_num
      rw [hstep]
      by_cases hp : (decide (w g = 2) && flag g) = true
      · rw [if_pos hp, if_pos hp, ih, List.length_cons]
        push_cast
        ring
      · rw [if_neg hp, if_neg hp, ih, add_zero]

/-- Claim C4: under the 0-or-2 genre weight policy the preference
score of every candidate in the pool decomposes exactly as the spec
states, with the hidden-mode popularity term
max(0, (500 - count) / 500) * 3 - (log1p(count) - min log1p over the
pool) * 0.2. -/
theorem claim_c4_pref_score (df : List Candidate) (prefs : Prefs)
    (log1p : Nat → Rat)
    (hw : ∀ g, prefs.genre_weights g = 0 ∨ prefs.genre_weights g = 2) :
    score_by_preferences df prefs log1p =
      df.map (prefScoreSpec df (Genre.all.filter (fun g => prefs.genre_weights g = 2))
        prefs.year_min prefs.popularity_pref log1p) := by
  unfold score_by_preferences
  congr 1
  funext c
  unfold prefScoreRow prefScoreSpec
  have hsel : Genre.all.filter (fun g => prefs.genre_weights g ≠ 0)
      = Genre.all.filter (fun g => prefs.genre_weights g = 2) := by
    apply List.filter_congr
    intro g _
    rcases hw g with h | h <;> simp [h]
  have hcount : (Genre.all.filter (fun g => prefs.genre_weights g = 2 && c.flag g))
      = (Genre.all.filter (fun g => prefs.genre_weights g = 2)).filter (fun g => c.flag g) := by
    rw [List.filter_filter]
    apply List.filter_congr
    intro g _
    exact Bool.and_comm _ _
  rw [genreFold_eq prefs.genre_weights (fun g => c.flag g) hw, hcount, hsel]
  have hyear : (¬ (prefs.year_min ≤ c.year)) ↔ (c.year < prefs.year_min) := not_le
  by_cases hg : (Genre.all.filter (fun g => prefs.genre_weights g = 2)) ≠ [] ∧
      ¬ (Genre.all.filter (fun g => prefs.genre_weights g = 2)).any (fun g => c.flag g) <;>
    by_cases hy : c.year < prefs.year_min <;>
    simp only [hg, hy, hyear, if_true, if_false, ite_true, ite_false, if_pos, if_neg,
      not_lt, not_le, max_comm] <;>
    split_ifs <;> ring

/-- Witness for claim C4 on a concrete pool and a profile selecting
the horror genre with weight 2. -/
theorem claim_c4_witness :
    score_by_preferences dfHor prefsHor log1pZ =
      dfHor.map (prefScoreSpec dfHor
        (Genre.all.filter (fun g => prefsHor.genre_weights g = 2))
        prefsHor.year_min prefsHor.popularity_pref log1pZ) :=
  claim_c4_pref_score dfHor prefsHor log1pZ (by intro g; cases g <;> decide)

theorem foldl_add_eq_sum {α : Type} (f : α → Rat) :
    ∀ (L : List α) (a : Rat), L.foldl (fun acc p => acc + f p) a = a + (L.map f).sum := by
  intro L
  induction L with
  | nil => intro a; simp
  | cons x xs ih =>
      intro a
      rw [List.foldl_cons, ih, List.map_cons, List.sum_cons]
      ring

theorem foldl_guard_eq {α : Type} (q : α → Prop) [DecidablePred q] (f : α → Rat) (L : List α)
    (hq : ∀ p ∈ L, q p) :
    ∀ a : Rat, L.foldl (fun acc p => if q p then acc + f p else acc) a
      = L.foldl (fun acc p => acc + f p) a := by
  induction L with
  | nil => intro a; simp
  | cons x xs ih =>
      intro a
      rw [List.foldl_cons, List.foldl_cons, if_pos (hq x (List.mem_cons_self x xs))]
      exact ih (fun p hp => hq p (List.mem_cons_of_mem x hp)) _

theorem ratedPairs_fst_mem (rl : List RatingRow) (uid : Nat) (p : Nat × Rat)
    (hp : p ∈ ratedPairs rl uid) : p.1 ∈ matrixMovies rl := by
  unfold ratedPairs at hp
  rcases List.mem_filterMap.mp hp with ⟨m, hm, he⟩
  rcases Option.map_eq_some'.mp he with ⟨r, _, rfl⟩
  exact hm

/-- Claim C3: over any neighborhood matrix, the kept history scores
are exactly the spec formula: zero-initialized over the item universe,
accumulated as similarity(i, j) * (rating - 3), rated items removed,
strictly positive scores kept.  Symmetry of the similarity function
(true of cosine similarity) bridges the sim(j, i) orientation the
source uses with the sim(i, j) orientation of the spec. -/
theorem claim_c3_history_scores (rl : List RatingRow) (sim : Nat → Nat → Rat)
    (uid : Nat) (hsym : ∀ a b, sim a b = sim b a) :
    posScores rl sim uid = histScoreSpec rl sim uid := by
  unfold posScores histScoreSpec propagatedScores
  congr 2
  apply List.map_congr_left
  intro j _
  refine congrArg (fun v => (j, v)) ?_
  rw [foldl_guard_eq (fun p => p.1 ∈ matrixMovies rl)
        (fun p => sim j p.1 * (p.2 - 3)) (ratedPairs rl uid)
        (fun p hp => ratedPairs_fst_mem rl uid p hp),
      foldl_add_eq_sum, zero_add]
  congr 1
  apply List.map_congr_left
  intro p _
  rw [hsym j p.1]

/-- Witness for claim C3 at the concrete local matrix of the dbW
snapshot and the symmetric similarity simW. -/
theorem claim_c3_witness :
    posScores (localFiltered dbW 1 3000 5) simW 1 =
      histScoreSpec (localFiltered dbW 1 3000 5) simW 1 :=
  claim_c3_history_scores (localFiltered dbW 1 3000 5) simW 1
    (by
      intro a b
      by_cases h : a = b
      · subst h; rfl
      · simp [simW, h, Ne.symm h])

theorem ratedPairs_ne_nil_of_mem (rl : List RatingRow) (uid : Nat)
    (h : uid ∈ matrixUsers rl) : ratedPairs rl uid ≠ [] := by
  have h1 : uid ∈ rl.map (fun r => r.user_id) := (mem_sortedDedup _ _).mp h
  rcases List.mem_map.mp h1 with ⟨r, hr, hru⟩
  have hm : r.movie_id ∈ matrixMovies rl :=
    (mem_sortedDedup _ _).mpr (List.mem_map.mpr ⟨r, hr, rfl⟩)
  have hrf : r ∈ rl.filter (fun x => x.user_id = uid && x.movie_id = r.movie_id) := by
    rw [List.mem_filter]
    exact ⟨hr, by simp [hru]⟩
  have hcell : ∃ v, pivotCell rl uid r.movie_id = some v := by
    unfold pivotCell
    have hne : (rl.filter (fun x => x.user_id = uid && x.movie_id = r.movie_id)).map
        (fun x => x.rating) ≠ [] := by
      intro hq
      rw [List.map_eq_nil_iff] at hq
      rw [hq] at hrf
      exact (List.not_mem_nil r) hrf
    simp only [hne, if_neg, if_false]
    exact ⟨_, rfl⟩
  intro hnil
  rcases hcell with ⟨v, hv⟩
  have : (r.movie_id, v) ∈ ratedPairs rl uid := by
    unfold ratedPairs
    exact List.mem_filterMap.mpr ⟨r.movie_id, hm, by rw [hv]; rfl⟩
  rw [hnil] at this
  exact (List.not_mem_nil _) this

/-- Claim C2 (amended): recommend_from_history surfaces an error if
and only if one of five conditions holds: the user has no ratings, the
support-filtered local rating set is empty, the target user has no row
in the pivoted matrix (the KeyError case), no unrated item has a
strictly positive propagated score, or the catalog join and global
minimum-rating-count filter leave nothing; otherwise it returns a
result. -/
theorem claim_c2_error_conditions (db : DB) (sim : Nat → Nat → Rat)
    (uid topn minr : Nat) :
    isErr (recommend_from_history db sim uid topn minr) = true ↔
      (userRatingRows db uid = [] ∨
       localFiltered db uid 3000 5 = [] ∨
       uid ∉ matrixUsers (localFiltered db uid 3000 5) ∨
       posScores (localFiltered db uid 3000 5) sim uid = [] ∨
       globallyFiltered db.movie_features_with_links
         (posScores (localFiltered db uid 3000 5) sim uid) minr = []) := by
  unfold recommend_from_history buildLocalMatrix
  by_cases h1 : userRatingRows db uid = []
  · simp [h1, isErr]
  · by_cases h2 : localFiltered db uid 3000 5 = []
    · simp [h1, h2, isErr]
    · by_cases h3 : uid ∈ matrixUsers (localFiltered db uid 3000 5)
      · have h4 := ratedPairs_ne_nil_of_mem (localFiltered db uid 3000 5) uid h3
        by_cases h5 : posScores (localFiltered db uid 3000 5) sim uid = []
        · simp [h1, h2, h3, h4, h5, isErr]
        · by_cases h6 : globallyFiltered db.movie_features_with_links
              (posScores (localFiltered db uid 3000 5) sim uid) minr = []
          · simp [h1, h2, h3, h4, h5, h6, isErr]
          · simp [h1, h2, h3, h4, h5, h6, isErr]
      · simp [h1, h2, h3, isErr]

/-- Counterexample to claim C2 as stated: on the dbC2 snapshot the
user has ratings, the filtered neighborhood set is non-empty and a
strictly positive unrated score exists, yet the call errors, because
the global minimum-rating-count filter (a fourth raise site the claim
omits) empties the result. -/
theorem claim_c2_counterexample :
    isErr (recommend_from_history dbC2 simW 1 10 30) = true ∧
    userRatingRows dbC2 1 ≠ [] ∧
    localFiltered dbC2 1 3000 5 ≠ [] ∧
    posScores (localFiltered dbC2 1 3000 5) simW 1 ≠ [] := by decide

/-- Claim C10 is false of the code: on the db10 snapshot the
support-filtered local rating set is non-empty, yet user 1 has no row
in the pivoted matrix, so the rating_matrix.loc lookup raises (the
userRowMissing case) instead of the documented ValueError family. -/
theorem claim_c10_row_lookup_can_fail :
    localFiltered db10 1 3000 5 ≠ [] ∧
    1 ∉ matrixUsers (localFiltered db10 1 3000 5) ∧
    recommend_from_history db10 simW 1 10 30 = .error .userRowMissing := by decide

theorem mem_languageGate (eff : String) (lang : Nat → Option String)
    (ms : List MRow) (r : MRow) (h : r ∈ languageGate eff lang ms) : r ∈ ms := by
  unfold languageGate at h
  split_ifs at h
  any_goals exact h
  all_goals exact List.mem_of_mem_filter h

theorem mem_selectStage (pop : String) (top_n : Nat) (ms : List MRow) (r : MRow)
    (h : r ∈ selectStage pop top_n ms) : r ∈ ms := by
  unfold selectStage at h
  split_ifs at h
  · exact (mem_sortDescBy _ _ _).mp (List.mem_of_mem_filter (List.mem_of_mem_take h))
  · rcases List.mem_append.mp h with h2 | h2
    · exact (mem_sortDescBy _ _ _).mp (List.mem_of_mem_filter h2)
    · exact (mem_sortDescBy _ _ _).mp (List.mem_of_mem_filter (List.mem_of_mem_take h2))
  · exact (mem_sortDescBy _ _ _).mp (List.mem_of_mem_take h)

theorem not_mem_of_mem_ratedFilter (cand : List Candidate) (rated : List Nat)
    (c : Candidate) (h : c ∈ cand.filter (fun c => c.movie_id ∉ rated)) :
    c.movie_id ∉ rated := by
  have hmf := List.mem_filter.mp h
  simpa using hmf.2

theorem mem_mergeStage (c2 : List Candidate) (histDf : List (Nat × Rat))
    (prefScores : List Rat) (alpha : Rat) (r : MRow)
    (h : r ∈ mergeStage c2 histDf prefScores alpha) : r.c ∈ c2 := by
  unfold mergeStage at h
  simp only [List.mem_map] at h
  rcases h with ⟨q, hq, rfl⟩
  exact (List.of_mem_zip (List.of_mem_zip (List.of_mem_zip hq).1).1).1

/-- Claim C1 (amended): every movie id in an ok result of
compute_hybrid_recs is outside the set of movie ids the user has
rated. -/
theorem claim_c1_compute_excludes_rated (db : DB) (sim : Nat → Nat → Rat)
    (log1p : Nat → Rat) (lang : Nat → Option String) (apiKey : Bool) (uid : Nat)
    (gs : List Genre) (ym : Int) (pop : String) (alpha : Rat) (foreign_choice : String)
    (topn : Nat) (res : List ResultRow) (m : Nat)
    (hu : userRatingRows db uid ≠ [])
    (hok : compute_hybrid_recs db sim log1p lang apiKey uid gs ym pop alpha foreign_choice topn = .ok res)
    (hm : m ∈ res.map (fun r => r.movie_id)) :
    m ∉ userRatedIds db uid := by
  unfold compute_hybrid_recs at hok
  rcases hcs : computeStages db sim log1p lang apiKey uid gs ym pop alpha foreign_choice with e | ms
  · rw [hcs] at hok; exact absurd hok (by simp)
  · rw [hcs] at hok
    have hres : res = (selectStage pop topn ms).map toResultRow := (Except.ok.inj hok).symm
    subst hres
    rcases List.mem_map.mp hm with ⟨rr, hrr, rfl⟩
    rcases List.mem_map.mp hrr with ⟨mr, hmr, rfl⟩
    have hmem : mr ∈ ms := mem_selectStage pop topn ms mr hmr
    unfold computeStages at hcs
    rcases hrec : recommend_from_history db sim uid 500 30 with e | histRows
    · rw [hrec] at hcs; exact absurd hcs (by simp)
    · rw [hrec] at hcs
      have hms := Except.ok.inj hcs
      rw [← hms] at hmem
      have hpos := mem_languageGate _ _ _ _ hmem
      have hrow := List.mem_of_mem_filter hpos
      have hc2 := mem_mergeStage _ _ _ _ _ hrow
      have hrated : userRatedIds db uid ≠ [] := by
        unfold userRatedIds
        intro hq
        rw [List.map_eq_nil_iff] at hq
        exact hu hq
      rcases hgs : gs with _ | ⟨g, gs2⟩
      · rw [hgs] at hc2
        rw [if_pos rfl, if_neg hrated] at hc2
        exact not_mem_of_mem_ratedFilter _ _ _ hc2
      · rw [hgs] at hc2
        rw [if_neg (by simp)] at hc2
        have hc2b := List.mem_of_mem_filter hc2
        rw [if_neg hrated] at hc2b
        exact not_mem_of_mem_ratedFilter _ _ _ hc2b

/-- Witness for claim C1: on the dbW snapshot the ok result contains
movie 30, and the theorem instance confirms it is not a rated movie. -/
theorem claim_c1_witness : (30 : Nat) ∉ userRatedIds dbW 1 :=
  claim_c1_compute_excludes_rated dbW simW log1pZ langNone false 1 [] 1900 "mixed"
    (1 / 2) "any" 10
    (exceptList (compute_hybrid_recs dbW simW log1pZ langNone false 1 [] 1900 "mixed"
      (1 / 2) "any" 10))
    30 (by decide) (by decide) (by decide)

/-- Counterexample to claim C1 as stated: recommend_hybrid on the dbH
snapshot returns movie 20 although user 1 has rated it, because the
preference-side candidates of the hybrid CLI path are never filtered
by the rating set. -/
theorem claim_c1_counterexample :
    20 ∈ (exceptList (recommend_hybrid dbH simW log1pZ 1 prefsH (3 / 5) 10)).map
      (fun r => r.movie_id) ∧
    20 ∈ userRatedIds dbH 1 := by decide

theorem length_filter_partition {α : Type} (p : α → Bool) (l : List α) :
    (l.filter p).length + (l.filter (fun a => !(p a))).length = l.length := by
  induction l with
  | nil => simp
  | cons x xs ih =>
      by_cases hx : p x <;> simp [List.filter_cons, hx] <;> omega

theorem gemPred_neg (r : MRow) :
    (decide (5000 ≤ r.c.num_ratings)) = !(decide (r.c.num_ratings < 5000)) := by
  rcases Nat.lt_or_ge r.c.num_ratings 5000 with h | h
  · simp [h, Nat.not_le.mpr h]
  · simp [Nat.not_lt.mpr h, h]

theorem filter_map_toResult (p : ResultRow → Bool) (q : MRow → Bool)
    (hpq : ∀ r : MRow, p (toResultRow r) = q r) (l : List MRow) :
    (l.map toResultRow).filter p = (l.filter q).map toResultRow := by
  rw [List.filter_map]
  congr 1
  apply List.filter_congr
  intro a _
  exact hpq a

/-- Claim C6: in hidden popularity mode the ok result of
compute_hybrid_recs lists every item with fewer than 5000 ratings
before every item with at least 5000, both partitions are sorted by
descending final score, and the result size is the minimum of top_n
and the number of eligible merged rows after all filters. -/
theorem claim_c6_hidden_ordering (db : DB) (sim : Nat → Nat → Rat)
    (log1p : Nat → Rat) (lang : Nat → Option String) (apiKey : Bool) (uid : Nat)
    (gs : List Genre) (ym : Int) (alpha : Rat) (foreign_choice : String)
    (topn : Nat) (ms : List MRow) (res : List ResultRow)
    (hms : computeStages db sim log1p lang apiKey uid gs ym "hidden" alpha foreign_choice = .ok ms)
    (hok : compute_hybrid_recs db sim log1p lang apiKey uid gs ym "hidden" alpha foreign_choice topn = .ok res) :
    res = res.filter (fun r => r.num_ratings < 5000) ++
          res.filter (fun r => 5000 ≤ r.num_ratings) ∧
    (res.filter (fun r => r.num_ratings < 5000)).Pairwise
      (fun a b => b.final_score ≤ a.final_score) ∧
    (res.filter (fun r => 5000 ≤ r.num_ratings)).Pairwise
      (fun a b => b.final_score ≤ a.final_score) ∧
    res.length = min topn ms.length := by
  unfold compute_hybrid_recs at hok
  rw [hms] at hok
  have hres : res = (selectStage "hidden" topn ms).map toResultRow :=
    (Except.ok.inj hok).symm
  unfold selectStage at hres
  rw [if_pos rfl] at hres
  set S := sortDescBy (fun r : MRow => r.final_score) ms with hSdef
  set H := S.filter (fun r => r.c.num_ratings < 5000) with hHdef
  set R := S.filter (fun r => 5000 ≤ r.c.num_ratings) with hRdef
  have hSpair : S.Pairwise (fun a b => b.final_score ≤ a.final_score) :=
    pairwise_sortDescBy _ ms
  have hSlen : S.length = ms.length := length_sortDescBy _ ms
  have hHpair : H.Pairwise (fun a b => b.final_score ≤ a.final_score) :=
    hSpair.sublist (List.filter_sublist _)
  have hRpair : R.Pairwise (fun a b => b.final_score ≤ a.final_score) :=
    hSpair.sublist (List.filter_sublist _)
  have hHR : H.length + R.length = ms.length := by
    have hcg : R = S.filter (fun r => !(decide (r.c.num_ratings < 5000))) := by
      rw [hRdef]
      apply List.filter_congr
      intro a _
      exact gemPred_neg a
    rw [hHdef, hcg, length_filter_partition, hSlen]
  have hgemtrans : ∀ a b : MRow, b.final_score ≤ a.final_score →
      (toResultRow b).final_score ≤ (toResultRow a).final_score := by
    intro a b hab
    exact hab
  have hgemH : ∀ rr ∈ H, (decide (rr.c.num_ratings < 5000)) = true := by
    intro rr hrr
    rw [hHdef] at hrr
    exact (List.mem_filter.mp hrr).2
  have hnongemR : ∀ rr ∈ R, (decide (rr.c.num_ratings < 5000)) = false := by
    intro rr hrr
    rw [hRdef] at hrr
    have h2 := (List.mem_filter.mp hrr).2
    simp only [decide_eq_true_eq] at h2
    simp [Nat.not_lt.mpr h2]
  by_cases hcase : topn ≤ H.length
  · rw [if_pos hcase] at hres
    have e1 : (H.take topn).filter (fun r => r.c.num_ratings < 5000) = H.take topn :=
      List.filter_eq_self.mpr (fun a ha => hgemH a (List.mem_of_mem_take ha))
    have e2 : (H.take topn).filter (fun r => 5000 ≤ r.c.num_ratings) = [] :=
      List.filter_eq_nil_iff.mpr (fun a ha => by
        rw [gemPred_neg, hgemH a (List.mem_of_mem_take ha)]
        simp)
    have hfg : res.filter (fun r => r.num_ratings < 5000) = res := by
      rw [hres, filter_map_toResult _ (fun r => decide (r.c.num_ratings < 5000))
        (fun r => rfl), e1]
    have hfr : res.filter (fun r => 5000 ≤ r.num_ratings) = [] := by
      rw [hres, filter_map_toResult _ (fun r => decide (5000 ≤ r.c.num_ratings))
        (fun r => rfl), e2]
      rfl
    refine ⟨by rw [hfg, hfr, List.append_nil], ?_, ?_, ?_⟩
    · rw [hfg, hres]
      exact (hHpair.sublist (List.take_sublist _ _)).map toResultRow hgemtrans
    · rw [hfr]
      exact List.Pairwise.nil
    · rw [hres, List.length_map, List.length_take]
      omega
  · rw [if_neg hcase, List.map_append] at hres
    have e1 : H.filter (fun r => r.c.num_ratings < 5000) = H :=
      List.filter_eq_self.mpr (fun a ha => hgemH a ha)
    have e2 : ((R.take (topn - H.length)).filter (fun r => r.c.num_ratings < 5000)) = [] :=
      List.filter_eq_nil_iff.mpr (fun a ha => by
        rw [hnongemR a (List.mem_of_mem_take ha)]
        simp)
    have e3 : H.filter (fun r => 5000 ≤ r.c.num_ratings) = [] :=
      List.filter_eq_nil_iff.mpr (fun a ha => by
        rw [gemPred_neg, hgemH a ha]
        simp)
    have e4 : ((R.take (topn - H.length)).filter (fun r => 5000 ≤ r.c.num_ratings)) =
        R.take (topn - H.length) :=
      List.filter_eq_self.mpr (fun a ha => by
        rw [gemPred_neg, hnongemR a (List.mem_of_mem_take ha)]
        rfl)
    have hfg : res.filter (fun r => r.num_ratings < 5000) = H.map toResultRow := by
      rw [hres, List.filter_append,
        filter_map_toResult _ (fun r => decide (r.c.num_ratings < 5000)) (fun r => rfl),
        filter_map_toResult _ (fun r => decide (r.c.num_ratings < 5000)) (fun r => rfl),
        e1, e2]
      simp
    have hfr : res.filter (fun r => 5000 ≤ r.num_ratings) =
        (R.take (topn - H.length)).map toResultRow := by
      rw [hres, List.filter_append,
        filter_map_toResult _ (fun r => decide (5000 ≤ r.c.num_ratings)) (fun r => rfl),
        filter_map_toResult _ (fun r => decide (5000 ≤ r.c.num_ratings)) (fun r => rfl),
        e3, e4]
      simp
    refine ⟨?_, ?_, ?_, ?_⟩
    · rw [hfg, hfr, hres]
    · rw [hfg]
      exact hHpair.map toResultRow hgemtrans
    · rw [hfr]
      exact (hRpair.sublist (List.take_sublist _ _)).map toResultRow hgemtrans
    · rw [hres, List.length_append, List.length_map, List.length_map, List.length_take]
      omega

/-- Witness for claim C6 on the dbW snapshot in hidden mode. -/
theorem claim_c6_witness :
    (exceptList (compute_hybrid_recs dbW simW log1pZ langNone false 1 [] 1900 "hidden" (1 / 2) "any" 10)) =
      (exceptList (compute_hybrid_recs dbW simW log1pZ langNone false 1 [] 1900 "hidden" (1 / 2) "any" 10)).filter
        (fun r => r.num_ratings < 5000) ++
      (exceptList (compute_hybrid_recs dbW simW log1pZ langNone false 1 [] 1900 "hidden" (1 / 2) "any" 10)).filter
        (fun r => 5000 ≤ r.num_ratings) ∧
    ((exceptList (compute_hybrid_recs dbW simW log1pZ langNone false 1 [] 1900 "hidden" (1 / 2) "any" 10)).filter
      (fun r => r.num_ratings < 5000)).Pairwise (fun a b => b.final_score ≤ a.final_score) ∧
    ((exceptList (compute_hybrid_recs dbW simW log1pZ langNone false 1 [] 1900 "hidden" (1 / 2) "any" 10)).filter
      (fun r => 5000 ≤ r.num_ratings)).Pairwise (fun a b => b.final_score ≤ a.final_score) ∧
    (exceptList (compute_hybrid_recs dbW simW log1pZ langNone false 1 [] 1900 "hidden" (1 / 2) "any" 10)).length =
      min 10 (exceptList (computeStages dbW simW log1pZ langNone false 1 [] 1900 "hidden" (1 / 2) "any")).length :=
  claim_c6_hidden_ordering dbW simW log1pZ langNone false 1 [] 1900 (1 / 2) "any" 10
    (exceptList (computeStages dbW simW log1pZ langNone false 1 [] 1900 "hidden" (1 / 2) "any"))
    (exceptList (compute_hybrid_recs dbW simW log1pZ langNone false 1 [] 1900 "hidden" (1 / 2) "any" 10))
    (by decide) (by decide)

theorem rowLang_none_of_all_none (lang : Nat → Option String)
    (hall : ∀ t, lang t = none) (r : MRow) : rowLangOf lang r = none := by
  unfold rowLangOf
  cases r.c.tmdb_id with
  | none => rfl
  | some t => exact hall t

theorem languageGate_all_none (eff : String) (lang : Nat → Option String)
    (hall : ∀ t, lang t = none) (ms : List MRow) :
    languageGate eff lang ms = ms := by
  unfold languageGate
  split_ifs with h1 h2 h3
  · exfalso
    have hz : ms.filter (fun r => (rowLangOf lang r).isSome) = [] :=
      List.filter_eq_nil_iff.mpr (fun a _ => by
        rw [rowLang_none_of_all_none lang hall a]
        simp)
    rw [hz] at h2
    simp at h2
  · exfalso
    have hz : ms.filter (fun r => (rowLangOf lang r).isSome) = [] :=
      List.filter_eq_nil_iff.mpr (fun a _ => by
        rw [rowLang_none_of_all_none lang hall a]
        simp)
    rw [hz] at h2
    simp at h2
  · rfl
  · rfl

theorem computeStages_foreign_irrelevant_all_none (db : DB) (sim : Nat → Nat → Rat)
    (log1p : Nat → Rat) (lang : Nat → Option String)
    (hall : ∀ t, lang t = none) (uid : Nat) (gs : List Genre) (ym : Int)
    (pop : String) (alpha : Rat) (f1 f2 : String) :
    computeStages db sim log1p lang true uid gs ym pop alpha f1 =
      computeStages db sim log1p lang true uid gs ym pop alpha f2 := by
  unfold computeStages
  cases recommend_from_history db sim uid 500 30 with
  | error e => rfl
  | ok histRows =>
      simp only [if_true, if_pos rfl]
      rw [languageGate_all_none _ lang hall, languageGate_all_none _ lang hall]

/-- Claim C7: when every language lookup fails (or no API key is
configured) compute_hybrid_recs with the exclude policy returns the
same ordered result as with the any policy; and when some lookup
succeeds, an unknown-language row is kept by the exclude gate and
dropped by the only gate. -/
theorem claim_c7_language_gate_degradation (db : DB) (sim : Nat → Nat → Rat)
    (log1p : Nat → Rat) (uid : Nat) (gs : List Genre) (ym : Int) (pop : String)
    (alpha : Rat) (topn : Nat) (lang lang2 : Nat → Option String)
    (hall : ∀ t, lang t = none) (ms : List MRow) (c : MRow)
    (hb1 : 0 < (ms.filter (fun r => (rowLangOf lang2 r).isSome)).length)
    (hb2 : c ∈ ms) (hb3 : rowLangOf lang2 c = none) :
    compute_hybrid_recs db sim log1p lang false uid gs ym pop alpha "exclude" topn =
      compute_hybrid_recs db sim log1p lang false uid gs ym pop alpha "any" topn ∧
    compute_hybrid_recs db sim log1p lang true uid gs ym pop alpha "exclude" topn =
      compute_hybrid_recs db sim log1p lang true uid gs ym pop alpha "any" topn ∧
    c ∈ languageGate "exclude" lang2 ms ∧
    c ∉ languageGate "only" lang2 ms := by
  refine ⟨rfl, ?_, ?_, ?_⟩
  · unfold compute_hybrid_recs
    rw [computeStages_foreign_irrelevant_all_none db sim log1p lang hall uid gs ym
      pop alpha "exclude" "any"]
  · unfold languageGate
    rw [if_pos (Or.inl rfl), if_pos hb1, if_pos rfl]
    refine List.mem_filter.mpr ⟨hb2, ?_⟩
    rw [hb3]
    rfl
  · unfold languageGate
    rw [if_pos (Or.inr rfl)]
    rw [if_pos hb1]
    rw [if_neg (by decide)]
    intro hmem
    have h2 := (List.mem_filter.mp hmem).2
    rw [hb3] at h2
    simp at h2

/-- Witness for claim C7 at the concrete dbW snapshot, an all-failing
provider, a partially succeeding provider and a two-row merged set. -/
theorem claim_c7_witness :
    compute_hybrid_recs dbW simW log1pZ langNone false 1 [] 1900 "mixed" (1 / 2) "exclude" 10 =
      compute_hybrid_recs dbW simW log1pZ langNone false 1 [] 1900 "mixed" (1 / 2) "any" 10 ∧
    compute_hybrid_recs dbW simW log1pZ langNone true 1 [] 1900 "mixed" (1 / 2) "exclude" 10 =
      compute_hybrid_recs dbW simW log1pZ langNone true 1 [] 1900 "mixed" (1 / 2) "any" 10 ∧
    mrowNoId ∈ languageGate "exclude" langSeven [mrowSeven, mrowNoId] ∧
    mrowNoId ∉ languageGate "only" langSeven [mrowSeven, mrowNoId] :=
  claim_c7_language_gate_degradation dbW simW log1pZ 1 [] 1900 "mixed" (1 / 2) 10
    langNone langSeven (fun _ => rfl) [mrowSeven, mrowNoId] mrowNoId
    (by decide) (by decide) (by decide)

/-- Claim C9 (amended): a non-numeric alpha makes the float parse
fail, so the boundary aborts before compute_hybrid_recs is reached; a
numeric alpha is handed to the core exactly as parsed, with no range
validation. -/
theorem claim_c9_alpha_boundary (floatParse : String → Option Rat) (myUserId : Nat)
    (f : IndexForm) :
    (floatParse ((f.alpha_raw).getD "0.4") = none →
       parseIndexRequest floatParse myUserId f = .error ()) ∧
    (∀ a, floatParse ((f.alpha_raw).getD "0.4") = some a →
       parseIndexRequest floatParse myUserId f =
         .ok ⟨myUserId, f.genres,
              (if f.year_choice = "after2000" then 2000
               else if f.year_choice = "after1980" then 1980 else 1900),
              f.pop_choice, a, f.foreign_choice, 10⟩) := by
  constructor
  · intro hnone
    unfold parseIndexRequest
    rw [hnone]
  · intro a ha
    unfold parseIndexRequest
    rw [ha]

/-- Counterexample to claim C9 as stated: the numeric but out-of-range
alpha string "2.0" passes the boundary and compute_hybrid_recs is
invoked with alpha = 2, outside the unit interval. -/
theorem claim_c9_counterexample :
    parseIndexRequest fpTwo 9999999 formTwo = .ok argsTwo ∧
    argsTwo.alpha = 2 ∧ ¬ (argsTwo.alpha ≤ 1) := by decide

/-- Witness for claim C9 at a rejecting parser and an accepting
parser. -/
theorem claim_c9_witness :
    parseIndexRequest fpNone 9999999 formTwo = .error () ∧
    parseIndexRequest fpTwo 9999999 formTwo = .ok ⟨9999999, [], 1900, "mixed", 2, "any", 10⟩ :=
  ⟨(claim_c9_alpha_boundary fpNone 9999999 formTwo).1 rfl,
   (claim_c9_alpha_boundary fpTwo 9999999 formTwo).2 2 rfl⟩
